import Mathlib

/-!
Verification development for the coinpayportal operator scripts
(`scripts/lightning-monitor.py` and `scripts/check-invoices.py`).

The watermarked invoice-polling loop is embedded shallowly:
JSON scalars become explicit sum/option types, Python `dict.get`
defaulting becomes `Option.getD`, Python exceptions become explicit
error results, and the external collaborators (RPC client, webhook,
registry) become function parameters / result values.
-/

namespace CoinPay

/-- Amount fields arrive from the node RPC either as a bare integer
(millisatoshis) or as a string (possibly suffixed with "msat"). -/
inductive AmountVal where
  | int (n : Int)
  | str (s : String)
deriving DecidableEq

/-- Invoice record as read from the CLN `listinvoices` JSON response.
Every field is optional; the Python code reads each with `dict.get`. -/
structure Invoice where
  status : Option String
  pay_index : Option Int
  payment_hash : Option String
  payment_preimage : Option String
  amount_received_msat : Option AmountVal
  msatoshi_received : Option AmountVal
  local_offer_id : Option String
  description : Option String
  paid_at : Option Int
deriving DecidableEq

/-- Node record fetched from the registry (`ln_nodes` row). -/
structure NodeRecord where
  id : String
  greenlight_node_id : Option String
  last_pay_index : Option Int
  business_id : Option String
deriving DecidableEq

/-- Python `inv.get('status', '')`. -/
def effStatus (inv : Invoice) : String := inv.status.getD ""

/-- Python `inv.get('pay_index', 0)`. -/
def effPayIndex (inv : Invoice) : Int := inv.pay_index.getD 0

/-- Python `node.get('last_pay_index') or 0`: `None` and `0` are falsy and
give `0`; any other integer (including a negative one) is kept, so for
integer values this coincides with `Option.getD 0`. -/
def effWatermark (node : NodeRecord) : Int := node.last_pay_index.getD 0

/-- Python `node.get('greenlight_node_id')` tested for truthiness:
`None` and the empty string both count as missing. -/
def effGlId (node : NodeRecord) : String := node.greenlight_node_id.getD ""

/-- Python `inv.get('amount_received_msat', inv.get('msatoshi_received', 0))`. -/
def rawAmount (inv : Invoice) : AmountVal :=
  match inv.amount_received_msat with
  | some v => v
  | none => inv.msatoshi_received.getD (AmountVal.int 0)

/-- Digit-string value, or `none` when empty or non-digit. -/
def digitsVal? (l : List Char) : Option Nat :=
  if l.isEmpty then none
  else if l.all Char.isDigit then
    some (l.foldl (fun a c => 10 * a + (c.toNat - 48)) 0)
  else none

/-- Surrounding-whitespace strip, as Python `str.strip()` does before
`int` parses. -/
def pyStrip (l : List Char) : List Char :=
  (((l.dropWhile Char.isWhitespace).reverse).dropWhile Char.isWhitespace).reverse

/-- Python `int(s)` on a string: optional surrounding whitespace, optional
sign, then at least one digit; anything else raises `ValueError`, modelled
as `none`. (Digit-group underscores are not modelled; no input in this
development uses them.) -/
def pyInt? (s : String) : Option Int :=
  match pyStrip s.data with
  | '-' :: rest => (digitsVal? rest).map (fun n => -(n : Int))
  | '+' :: rest => (digitsVal? rest).map (fun n => (n : Int))
  | l => (digitsVal? l).map (fun n => (n : Int))

/-- Python `s.endswith(suffix)`, computed on the character list. -/
def pyEndsWith (s suffix : String) : Bool :=
  suffix.data.isSuffixOf s.data

/-- Python `s[:-n]` for `0 < n ≤ len(s)`: drop the last `n` characters. -/
def pyDropRight (s : String) (n : Nat) : String :=
  String.mk (s.data.take (s.data.length - n))

/-- Lines 184-185 of lightning-monitor.py (and 52-53 of check-invoices.py):
a string ending in "msat" has the 4-character suffix stripped and is parsed
with `int`; a bare integer, or a string without the suffix, passes through
unchanged. `none` models the `ValueError` raised by `int`. -/
def parseAmount : AmountVal → Option AmountVal
  | AmountVal.int n => some (AmountVal.int n)
  | AmountVal.str s =>
      if pyEndsWith s "msat" then (pyInt? (pyDropRight s 4)).map AmountVal.int
      else some (AmountVal.str s)

/-- Line 176: an invoice is processed iff `status == 'paid'` and
`pay_index > last_pay_index`. -/
def passesFilter (W : Int) (inv : Invoice) : Bool :=
  decide (effStatus inv = "paid" ∧ W < effPayIndex inv)

/-- Delivery payload POSTed to the webhook by lightning-monitor.py
(lines 187-195). -/
structure Payment where
  node_id : String
  business_id : Option String
  payment_hash : String
  preimage : String
  amount_msat : AmountVal
  offer_id : Option String
  payer_note : Option String
deriving DecidableEq

/-- Payload construction for one invoice, including the amount-normalisation
step; `none` when `int` raises on a malformed amount string. -/
def mkPayment (node : NodeRecord) (inv : Invoice) : Option Payment :=
  (parseAmount (rawAmount inv)).map fun amt =>
    { node_id := node.id
      business_id := node.business_id
      payment_hash := inv.payment_hash.getD ""
      preimage := inv.payment_preimage.getD ""
      amount_msat := amt
      offer_id := inv.local_offer_id
      payer_note := inv.description }

/-- Outcome of one webhook POST, as seen by the monitor. -/
inductive WebhookResp where
  | status (code : Nat) (body : String)
  | netError (msg : String)
deriving DecidableEq

/-- Lines 125-138: the POST result is only logged — 200/201 count as
success, any other status or a network error as failure; the function
never raises. The returned flag is the logged success/failure. -/
def post_to_webhook (resp : WebhookResp) : Bool :=
  match resp with
  | WebhookResp.status code _ => code == 200 || code == 201
  | WebhookResp.netError _ => false

/-- The invoice loop of `monitor_node` (lines 171-201), threading the
running `max_pay_index` accumulator. Returns the payments actually POSTed,
their logged webhook outcomes, the final `max_pay_index`, and whether the
loop completed without an exception (a malformed amount raises
`ValueError`, abandoning the rest of the list). -/
def pollLoop (node : NodeRecord) (wh : Payment → WebhookResp) (W : Int) :
    List Invoice → Int → List Payment × List Bool × Int × Bool
  | [], maxSeen => ([], [], maxSeen, true)
  | inv :: rest, maxSeen =>
    if passesFilter W inv then
      match mkPayment node inv with
      | none => ([], [], maxSeen, false)
      | some p =>
          let whOk := post_to_webhook (wh p)
          let maxSeen2 := if maxSeen < effPayIndex inv then effPayIndex inv else maxSeen
          let r := pollLoop node wh W rest maxSeen2
          (p :: r.1, whOk :: r.2.1, r.2.2.1, r.2.2.2)
    else pollLoop node wh W rest maxSeen

/-- Result of one `monitor_node` call. `newWatermark` is the registry value
after the call (the persisted `max_pay_index`, or the unchanged prior
value); `persisted` records whether `update_pay_index` was called; `ok`
is false when the per-node try/except caught an exception. -/
structure PollOutcome where
  delivered : List Payment
  webhookResults : List Bool
  newWatermark : Int
  persisted : Bool
  ok : Bool
deriving DecidableEq

/-- Lines 141-208 of lightning-monitor.py. The RPC listinvoices call is a
parameter: `Except.error` models a raised RPC/network error, caught by the
per-node try/except with no delivery and no watermark update. A node with
a falsy `greenlight_node_id` is skipped before any RPC call. -/
def monitor_node (node : NodeRecord) (rpc : Except String (List Invoice))
    (wh : Payment → WebhookResp) : PollOutcome :=
  let W := effWatermark node
  if effGlId node = "" then
    { delivered := [], webhookResults := [], newWatermark := W
      persisted := false, ok := true }
  else
    match rpc with
    | Except.error _ =>
        { delivered := [], webhookResults := [], newWatermark := W
          persisted := false, ok := false }
    | Except.ok invs =>
        let r := pollLoop node wh W invs W
        if r.2.2.2 then
          if W < r.2.2.1 then
            { delivered := r.1, webhookResults := r.2.1, newWatermark := r.2.2.1
              persisted := true, ok := true }
          else
            { delivered := r.1, webhookResults := r.2.1, newWatermark := W
              persisted := false, ok := true }
        else
          { delivered := r.1, webhookResults := r.2.1, newWatermark := W
            persisted := false, ok := false }

/-- Payment record emitted by check-invoices.py (lines 55-63); unlike the
monitor's webhook payload it carries `pay_index` and `settled_at`. -/
structure CheckPayment where
  payment_hash : String
  preimage : String
  amount_msat : AmountVal
  pay_index : Int
  bolt12_offer : Option String
  payer_note : Option String
  settled_at : Option Int
deriving DecidableEq

/-- The payment object appended by check-invoices.py lines 55-63. -/
def mkCheckPayment (inv : Invoice) (amt : AmountVal) : CheckPayment :=
  { payment_hash := inv.payment_hash.getD ""
    preimage := inv.payment_preimage.getD ""
    amount_msat := amt
    pay_index := effPayIndex inv
    bolt12_offer := inv.local_offer_id
    payer_note := inv.description
    settled_at := inv.paid_at }

/-- The invoice loop of check-invoices.py `main` (lines 44-63): same filter
and amount handling as the monitor, accumulating the payment list.
`Except.error` models the `ValueError` raised by `int` on a malformed
amount, which escapes the loop. -/
def checkPayments (lastPayIndex : Int) : List Invoice → Except String (List CheckPayment)
  | [] => Except.ok []
  | inv :: rest =>
    if effStatus inv ≠ "paid" then checkPayments lastPayIndex rest
    else if effPayIndex inv ≤ lastPayIndex then checkPayments lastPayIndex rest
    else
      match parseAmount (rawAmount inv) with
      | none => Except.error "invalid literal for int"
      | some amt =>
          match checkPayments lastPayIndex rest with
          | Except.error e => Except.error e
          | Except.ok ps => Except.ok (mkCheckPayment inv amt :: ps)

/-- JSON object printed by check-invoices.py, together with the process
exit code. -/
structure CheckOutput where
  error : Option String
  payments : List CheckPayment
  exitCode : Nat
deriving DecidableEq

/-- check-invoices.py `main` after argument parsing (lines 27-69): missing
credentials print an error object and exit 0 (lines 30-32); any exception
from the RPC call or the loop prints an error object and exits 0
(lines 67-69); success prints the payments and exits 0. -/
def checkInvoicesRun (lastPayIndex : Int) (certExists keyExists : Bool)
    (rpc : Except String (List Invoice)) : CheckOutput :=
  if !certExists || !keyExists then
    { error := some "Greenlight credentials not found", payments := [], exitCode := 0 }
  else
    match rpc with
    | Except.error e => { error := some e, payments := [], exitCode := 0 }
    | Except.ok invs =>
      match checkPayments lastPayIndex invs with
      | Except.error e => { error := some e, payments := [], exitCode := 0 }
      | Except.ok ps => { error := none, payments := ps, exitCode := 0 }

/-- lightning-monitor.py `load_credentials` (lines 65-80): a missing
certificate or key logs an error and calls `sys.exit(1)`, modelled as
`Except.error` carrying the exit code. -/
def load_credentials (certExists keyExists : Bool) : Except Nat Unit :=
  if !certExists then Except.error 1
  else if !keyExists then Except.error 1
  else Except.ok ()

/-- One poll cycle over the active nodes (lines 225-228 with the
cancellation check elided): `monitor_node` is called sequentially for
every node; a per-node failure is absorbed inside `monitor_node`. -/
def run_cycle (nodes : List NodeRecord) (rpc : String → Except String (List Invoice))
    (wh : Payment → WebhookResp) : List PollOutcome :=
  nodes.map (fun n => monitor_node n (rpc n.id) wh)

/-- Registry value of `last_pay_index` after a `monitor_node` call:
updated only when `update_pay_index` was called (line 204). -/
def stored_watermark (node : NodeRecord) (out : PollOutcome) : Option Int :=
  if out.persisted then some out.newWatermark else node.last_pay_index

/-- The sleep loop of `main` (lines 233-236): up to `interval` unit sleeps,
checking the `running` flag before each. The flag is modelled as a stream
indexed by check number; the result is (number of `time.sleep(1)` calls
performed, index of the next unconsumed check). -/
def sleep_loop : Nat → (Nat → Bool) → Nat → Nat × Nat
  | 0, _, i => (0, i)
  | n + 1, running, i =>
      if running i then
        match sleep_loop n running (i + 1) with
        | (s, j) => (s + 1, j)
      else (0, i + 1)

/-- The per-node loop of `main` (lines 225-228): the `running` flag is
checked before each node's poll; result is (number of polls started,
next check index). -/
def cycle_polls (running : Nat → Bool) : List NodeRecord → Nat → Nat × Nat
  | [], i => (0, i)
  | _ :: rest, i =>
      if running i then
        match cycle_polls running rest (i + 1) with
        | (c, j) => (c + 1, j)
      else (0, i + 1)

/-- The outer `while running:` loop of `main` (lines 220-236), counting the
poll cycles started. `fuel` bounds the number of iterations modelled; the
flag is consumed check by check in program order: the while-condition,
then one check per node, then one check per sleep increment. -/
def main_loop (interval : Nat) (running : Nat → Bool) (nodes : List NodeRecord) :
    Nat → Nat → Nat
  | 0, _ => 0
  | fuel + 1, i =>
      if running i then
        match cycle_polls running nodes (i + 1) with
        | (_, j) =>
          match sleep_loop interval running j with
          | (_, k) => 1 + main_loop interval running nodes fuel k
      else 0

/-! Statement-side vocabulary: the filtered delivery list and the running
maximum, written directly as list combinators, used to state the claims
about `monitor_node`. -/

/-- The payloads of exactly the invoices passing the watermark filter, in
input order. -/
def deliveredSpec (node : NodeRecord) (W : Int) (invs : List Invoice) : List Payment :=
  invs.filterMap (fun inv => if passesFilter W inv then mkPayment node inv else none)

/-- The running `max_pay_index` accumulator over the filtered invoices,
seeded with `m`. -/
def maxSeenFrom (W : Int) (invs : List Invoice) (m : Int) : Int :=
  invs.foldl
    (fun a inv =>
      if passesFilter W inv then (if a < effPayIndex inv then effPayIndex inv else a) else a)
    m

/-! Concrete records used in scenario theorems, counterexamples and
witnesses. -/

/-- Invoice with every optional field absent. -/
def inv0 : Invoice :=
  { status := none, pay_index := none, payment_hash := none, payment_preimage := none
    amount_received_msat := none, msatoshi_received := none, local_offer_id := none
    description := none, paid_at := none }

/-- Invoice with the given status, pay_index, amount and payment hash. -/
def mkInv (st : String) (pidx : Option Int) (amt : Option AmountVal) (h : String) : Invoice :=
  { inv0 with
    status := some st, pay_index := pidx,
    amount_received_msat := amt, payment_hash := some h }

/-- Node record with watermark 5, as in the spec scenario. -/
def nodeS : NodeRecord :=
  { id := "n1", greenlight_node_id := some "gl1", last_pay_index := some 5
    business_id := some "b1" }

/-- Webhook oracle that accepts every delivery. -/
def wh0 : Payment → WebhookResp := fun _ => WebhookResp.status 200 ""

/-- Webhook oracle that answers 500 to every delivery. -/
def wh500 : Payment → WebhookResp := fun _ => WebhookResp.status 500 "boom"

/-- The spec scenario invoice list: pay_index 3 (paid), 6 (paid),
7 (unpaid), 8 (paid), listed in that order. -/
def scen : List Invoice :=
  [ mkInv "paid" (some 3) (some (AmountVal.int 100)) "h3"
  , mkInv "paid" (some 6) (some (AmountVal.int 200)) "h6"
  , mkInv "unpaid" (some 7) (some (AmountVal.int 300)) "h7"
  , mkInv "paid" (some 8) (some (AmountVal.int 400)) "h8" ]

/-- Two paid invoices above watermark 5 listed in descending pay_index
order, as an RPC client may return them. -/
def scenRev : List Invoice :=
  [ mkInv "paid" (some 8) (some (AmountVal.int 400)) "h8"
  , mkInv "paid" (some 6) (some (AmountVal.int 200)) "h6" ]

/-- A paid above-watermark invoice with an unparseable amount string,
followed by a valid paid invoice. -/
def scenBad : List Invoice :=
  [ mkInv "paid" (some 6) (some (AmountVal.str "abcmsat")) "h6"
  , mkInv "paid" (some 7) (some (AmountVal.int 1)) "h7" ]

/-- Node record whose registry row carries a negative `last_pay_index`. -/
def nodeNeg : NodeRecord :=
  { id := "n2", greenlight_node_id := some "gl2", last_pay_index := some (-1)
    business_id := none }

/-- Paid invoice with no `pay_index` field at all. -/
def invNoIdx : Invoice := { inv0 with status := some "paid", payment_hash := some "hx" }

/-! Helper lemmas about the poll loop. -/

/-- The delivered-payments component does not depend on the webhook's
responses. -/
theorem pollLoop_delivered_indep (node : NodeRecord) (wh1 wh2 : Payment → WebhookResp)
    (W : Int) : ∀ (invs : List Invoice) (m : Int),
    (pollLoop node wh1 W invs m).1 = (pollLoop node wh2 W invs m).1 := by
  intro invs
  induction invs with
  | nil => intro m; rfl
  | cons inv rest ih =>
    intro m
    simp only [pollLoop]
    cases hpf : passesFilter W inv with
    | false => simp only [hpf, Bool.false_eq_true, if_false]; exact ih m
    | true =>
      simp only [hpf, if_true]
      cases hmk : mkPayment node inv with
      | none => rfl
      | some p => simp only [ih]

/-- The final accumulator and completion flag do not depend on the
webhook's responses. -/
theorem pollLoop_tail_indep (node : NodeRecord) (wh1 wh2 : Payment → WebhookResp)
    (W : Int) : ∀ (invs : List Invoice) (m : Int),
    (pollLoop node wh1 W invs m).2.2 = (pollLoop node wh2 W invs m).2.2 := by
  intro invs
  induction invs with
  | nil => intro m; rfl
  | cons inv rest ih =>
    intro m
    simp only [pollLoop]
    cases hpf : passesFilter W inv with
    | false => simp only [hpf, Bool.false_eq_true, if_false]; exact ih m
    | true =>
      simp only [hpf, if_true]
      cases hmk : mkPayment node inv with
      | none => rfl
      | some p => simp only [ih]

/-- One webhook outcome is logged per delivered payment. -/
theorem pollLoop_results_length (node : NodeRecord) (wh : Payment → WebhookResp)
    (W : Int) : ∀ (invs : List Invoice) (m : Int),
    (pollLoop node wh W invs m).2.1.length = (pollLoop node wh W invs m).1.length := by
  intro invs
  induction invs with
  | nil => intro m; rfl
  | cons inv rest ih =>
    intro m
    simp only [pollLoop]
    cases hpf : passesFilter W inv with
    | false => simp only [hpf, Bool.false_eq_true, if_false]; exact ih m
    | true =>
      simp only [hpf, if_true]
      cases hmk : mkPayment node inv with
      | none => rfl
      | some p => simp only [List.length_cons, ih]

/-- When every filter-passing invoice has a parseable amount, the loop
completes and delivers exactly the filtered payloads in input order, with
the accumulator folded over the filtered pay indexes. -/
theorem pollLoop_ok_eq (node : NodeRecord) (wh : Payment → WebhookResp) (W : Int) :
    ∀ (invs : List Invoice) (m : Int),
    (∀ inv ∈ invs, passesFilter W inv = true → (mkPayment node inv).isSome) →
    pollLoop node wh W invs m =
      (deliveredSpec node W invs,
       (deliveredSpec node W invs).map (fun p => post_to_webhook (wh p)),
       maxSeenFrom W invs m, true) := by
  intro invs
  induction invs with
  | nil => intro m _; rfl
  | cons inv rest ih =>
    intro m hp
    simp only [pollLoop, deliveredSpec, maxSeenFrom, List.filterMap_cons, List.foldl_cons]
    cases hpf : passesFilter W inv with
    | false =>
      simp only [hpf, Bool.false_eq_true, if_false]
      exact ih m (fun i hi => hp i (List.mem_cons_of_mem _ hi))
    | true =>
      simp only [hpf, if_true]
      have hsome := hp inv (List.mem_cons_self _ _) hpf
      cases hmk : mkPayment node inv with
      | none => rw [hmk] at hsome; simp at hsome
      | some p =>
        have ihr := ih (if m < effPayIndex inv then effPayIndex inv else m)
          (fun i hi => hp i (List.mem_cons_of_mem _ hi))
        simp only [ihr, deliveredSpec, maxSeenFrom, List.map_cons]

/-- Every payment the loop emits (even when it aborts mid-list) is the
payload of some filter-passing invoice of the input. -/
theorem pollLoop_delivered_sound (node : NodeRecord) (wh : Payment → WebhookResp)
    (W : Int) : ∀ (invs : List Invoice) (m : Int) (p : Payment),
    p ∈ (pollLoop node wh W invs m).1 →
    ∃ inv, inv ∈ invs ∧ passesFilter W inv = true ∧ mkPayment node inv = some p := by
  intro invs
  induction invs with
  | nil => intro m p hmem; simp [pollLoop] at hmem
  | cons inv rest ih =>
    intro m p hmem
    simp only [pollLoop] at hmem
    cases hpf : passesFilter W inv with
    | false =>
      rw [hpf] at hmem
      simp only [Bool.false_eq_true, if_false] at hmem
      obtain ⟨i, hi, hf, hm⟩ := ih m p hmem
      exact ⟨i, List.mem_cons_of_mem _ hi, hf, hm⟩
    | true =>
      rw [hpf] at hmem
      simp only [if_true] at hmem
      cases hmk : mkPayment node inv with
      | none => rw [hmk] at hmem; simp at hmem
      | some q =>
        rw [hmk] at hmem
        simp only [List.mem_cons] at hmem
        cases hmem with
        | inl h => exact ⟨inv, List.mem_cons_self _ _, hpf, by rw [hmk, h]⟩
        | inr h =>
          obtain ⟨i, hi, hf, hm⟩ := ih _ p h
          exact ⟨i, List.mem_cons_of_mem _ hi, hf, hm⟩

/-- The accumulator never decreases along the loop. -/
theorem maxSeenFrom_mono (W : Int) : ∀ (invs : List Invoice) (m : Int),
    m ≤ maxSeenFrom W invs m := by
  intro invs
  induction invs with
  | nil => intro m; exact le_refl m
  | cons inv rest ih =>
    intro m
    simp only [maxSeenFrom, List.foldl_cons]
    cases hpf : passesFilter W inv with
    | false => simpa [hpf] using ih m
    | true =>
      simp only [hpf, if_true]
      by_cases hlt : m < effPayIndex inv
      · calc m ≤ effPayIndex inv := le_of_lt hlt
          _ ≤ _ := by simpa [hlt] using ih (effPayIndex inv)
      · simpa [hlt] using ih m

/-- The accumulator dominates the pay index of every filter-passing
invoice of the list. -/
theorem maxSeenFrom_ge (W : Int) : ∀ (invs : List Invoice) (m : Int) (inv : Invoice),
    inv ∈ invs → passesFilter W inv = true → effPayIndex inv ≤ maxSeenFrom W invs m := by
  intro invs
  induction invs with
  | nil => intro m inv h; simp at h
  | cons i0 rest ih =>
    intro m inv hmem hpf
    simp only [maxSeenFrom, List.foldl_cons]
    rcases List.mem_cons.mp hmem with h | h
    · subst h
      simp only [hpf, if_true]
      by_cases hlt : m < effPayIndex inv
      · simpa [hlt] using maxSeenFrom_mono W rest (effPayIndex inv)
      · have : effPayIndex inv ≤ m := le_of_not_lt hlt
        calc effPayIndex inv ≤ m := this
          _ ≤ _ := by simpa [hlt] using maxSeenFrom_mono W rest m
    · cases hpf0 : passesFilter W i0 with
      | false => simpa [hpf0] using ih m inv h hpf
      | true =>
        simp only [hpf0, if_true]
        exact ih _ inv h hpf

/-- The final accumulator is either the seed or the pay index of some
filter-passing invoice. -/
theorem maxSeenFrom_cases (W : Int) : ∀ (invs : List Invoice) (m : Int),
    maxSeenFrom W invs m = m ∨
    ∃ inv, inv ∈ invs ∧ passesFilter W inv = true ∧ maxSeenFrom W invs m = effPayIndex inv := by
  intro invs
  induction invs with
  | nil => intro m; exact Or.inl rfl
  | cons i0 rest ih =>
    intro m
    simp only [maxSeenFrom, List.foldl_cons]
    cases hpf : passesFilter W i0 with
    | false =>
      rcases ih m with h | ⟨inv, hi, hf, he⟩
      · exact Or.inl (by simpa [hpf] using h)
      · exact Or.inr ⟨inv, List.mem_cons_of_mem _ hi, hf, by simpa [hpf] using he⟩
    | true =>
      simp only [hpf, if_true]
      by_cases hlt : m < effPayIndex i0
      · rcases ih (effPayIndex i0) with h | ⟨inv, hi, hf, he⟩
        · exact Or.inr ⟨i0, List.mem_cons_self _ _, hpf, by simpa [hlt] using h⟩
        · exact Or.inr ⟨inv, List.mem_cons_of_mem _ hi, hf, by simpa [hlt] using he⟩
      · rcases ih m with h | ⟨inv, hi, hf, he⟩
        · exact Or.inl (by simpa [hlt] using h)
        · exact Or.inr ⟨inv, List.mem_cons_of_mem _ hi, hf, by simpa [hlt] using he⟩

/-- Unfolding of the filter predicate. -/
theorem passesFilter_iff (W : Int) (inv : Invoice) :
    passesFilter W inv = true ↔ (effStatus inv = "paid" ∧ W < effPayIndex inv) := by
  simp [passesFilter]

/-- The seed-independent part: an all-false filter leaves the accumulator
at the seed. -/
theorem maxSeenFrom_of_none (W : Int) : ∀ (invs : List Invoice) (m : Int),
    (∀ inv ∈ invs, passesFilter W inv = false) → maxSeenFrom W invs m = m := by
  intro invs
  induction invs with
  | nil => intro m _; rfl
  | cons i0 rest ih =>
    intro m h
    have h0 := h i0 (List.mem_cons_self _ _)
    simp only [maxSeenFrom, List.foldl_cons, h0, Bool.false_eq_true, if_false]
    exact ih m (fun i hi => h i (List.mem_cons_of_mem _ hi))

/-- Components of a successful `monitor_node` call: delivered payloads,
webhook log, new watermark, persistence flag and completion flag. -/
theorem monitor_node_ok_parts (node : NodeRecord) (invs : List Invoice)
    (wh : Payment → WebhookResp) (hgl : effGlId node ≠ "")
    (hp : ∀ inv ∈ invs, passesFilter (effWatermark node) inv = true →
      (mkPayment node inv).isSome) :
    (monitor_node node (Except.ok invs) wh).delivered =
        deliveredSpec node (effWatermark node) invs ∧
    (monitor_node node (Except.ok invs) wh).webhookResults =
        (deliveredSpec node (effWatermark node) invs).map (fun p => post_to_webhook (wh p)) ∧
    (monitor_node node (Except.ok invs) wh).newWatermark =
        maxSeenFrom (effWatermark node) invs (effWatermark node) ∧
    ((monitor_node node (Except.ok invs) wh).persisted = true ↔
        effWatermark node < maxSeenFrom (effWatermark node) invs (effWatermark node)) ∧
    (monitor_node node (Except.ok invs) wh).ok = true := by
  have h := pollLoop_ok_eq node wh (effWatermark node) invs (effWatermark node) hp
  by_cases hlt : effWatermark node <
      maxSeenFrom (effWatermark node) invs (effWatermark node)
  · simp [monitor_node, if_neg hgl, h, hlt]
  · have heq : maxSeenFrom (effWatermark node) invs (effWatermark node) =
        effWatermark node :=
      le_antisymm (le_of_not_lt hlt) (maxSeenFrom_mono _ _ _)
    simp [monitor_node, if_neg hgl, h, hlt, heq]

/-- The delivered list, new watermark, persistence flag and completion
flag of `monitor_node` do not depend on the webhook's responses. -/
theorem monitor_node_wh_indep (node : NodeRecord) (rpc : Except String (List Invoice))
    (wh1 wh2 : Payment → WebhookResp) :
    (monitor_node node rpc wh1).delivered = (monitor_node node rpc wh2).delivered ∧
    (monitor_node node rpc wh1).newWatermark = (monitor_node node rpc wh2).newWatermark ∧
    (monitor_node node rpc wh1).persisted = (monitor_node node rpc wh2).persisted ∧
    (monitor_node node rpc wh1).ok = (monitor_node node rpc wh2).ok := by
  by_cases hgl : effGlId node = ""
  · simp [monitor_node, hgl]
  · cases rpc with
    | error e => simp [monitor_node, hgl]
    | ok invs =>
      have hd := pollLoop_delivered_indep node wh1 wh2 (effWatermark node) invs
        (effWatermark node)
      have ht := pollLoop_tail_indep node wh1 wh2 (effWatermark node) invs
        (effWatermark node)
      have hmax : (pollLoop node wh1 (effWatermark node) invs (effWatermark node)).2.2.1 =
          (pollLoop node wh2 (effWatermark node) invs (effWatermark node)).2.2.1 := by
        rw [ht]
      have hok : (pollLoop node wh1 (effWatermark node) invs (effWatermark node)).2.2.2 =
          (pollLoop node wh2 (effWatermark node) invs (effWatermark node)).2.2.2 := by
        rw [ht]
      simp only [monitor_node, if_neg hgl]
      rw [hd, hmax, hok]
      by_cases hc : (pollLoop node wh2 (effWatermark node) invs (effWatermark node)).2.2.2 = true
      · by_cases hlt : effWatermark node <
            (pollLoop node wh2 (effWatermark node) invs (effWatermark node)).2.2.1
        · simp [hc, hlt]
        · simp [hc, hlt]
      · simp [hc]

/-- One webhook outcome is logged per delivered payment. -/
theorem monitor_node_results_length (node : NodeRecord)
    (rpc : Except String (List Invoice)) (wh : Payment → WebhookResp) :
    (monitor_node node rpc wh).webhookResults.length =
      (monitor_node node rpc wh).delivered.length := by
  by_cases hgl : effGlId node = ""
  · simp [monitor_node, hgl]
  · cases rpc with
    | error e => simp [monitor_node, hgl]
    | ok invs =>
      have hl := pollLoop_results_length node wh (effWatermark node) invs (effWatermark node)
      simp only [monitor_node, if_neg hgl]
      by_cases hok : (pollLoop node wh (effWatermark node) invs (effWatermark node)).2.2.2 = true
      · by_cases hlt : effWatermark node <
            (pollLoop node wh (effWatermark node) invs (effWatermark node)).2.2.1
        · simp [hok, hlt, hl]
        · simp [hok, hlt, hl]
      · simp [hok, hl]

/-- Whatever branch `monitor_node` took, every delivered payment came out
of the poll loop. -/
theorem monitor_node_delivered_sub (node : NodeRecord) (invs : List Invoice)
    (wh : Payment → WebhookResp) (p : Payment)
    (hmem : p ∈ (monitor_node node (Except.ok invs) wh).delivered) :
    p ∈ (pollLoop node wh (effWatermark node) invs (effWatermark node)).1 := by
  by_cases hgl : effGlId node = ""
  · simp [monitor_node, hgl] at hmem
  · simp only [monitor_node, if_neg hgl] at hmem
    by_cases hok : (pollLoop node wh (effWatermark node) invs (effWatermark node)).2.2.2 = true
    · by_cases hlt : effWatermark node <
          (pollLoop node wh (effWatermark node) invs (effWatermark node)).2.2.1
      · simpa [hok, hlt] using hmem
      · simpa [hok, hlt] using hmem
    · simpa [hok] using hmem

/-- Success shape of the check-invoices loop: with parseable amounts the
payments come out in input order, one per filter-passing invoice. -/
theorem checkPayments_ok_shape (W : Int) : ∀ (invs : List Invoice),
    (∀ inv ∈ invs, passesFilter W inv = true → (parseAmount (rawAmount inv)).isSome) →
    ∃ ps, checkPayments W invs = Except.ok ps ∧
      ps.map (fun p => p.pay_index) = (invs.filter (passesFilter W)).map effPayIndex := by
  intro invs
  induction invs with
  | nil => intro _; exact ⟨[], rfl, rfl⟩
  | cons inv rest ih =>
    intro hp
    obtain ⟨ps, hps, hmap⟩ := ih (fun i hi => hp i (List.mem_cons_of_mem _ hi))
    by_cases hst : effStatus inv = "paid"
    · by_cases hle : effPayIndex inv ≤ W
      · have hpf : passesFilter W inv = false := by
          simp [passesFilter, hst, not_lt.mpr hle]
        refine ⟨ps, ?_, ?_⟩
        · simp only [checkPayments, hst, ne_eq, not_true_eq_false, if_false, hle, if_true]
          exact hps
        · simp only [List.filter_cons, hpf, Bool.false_eq_true, if_false]
          exact hmap
      · have hpf : passesFilter W inv = true := by
          simp [passesFilter, hst, lt_of_not_le hle]
        have hsome := hp inv (List.mem_cons_self _ _) hpf
        cases hamt : parseAmount (rawAmount inv) with
        | none => rw [hamt] at hsome; simp at hsome
        | some amt =>
          refine ⟨mkCheckPayment inv amt :: ps, ?_, ?_⟩
          · simp only [checkPayments, hst, ne_eq, not_true_eq_false, if_false, hle,
              if_false, hamt, hps]
          · simp only [List.map_cons, List.filter_cons, hpf, if_true, List.map_cons,
              mkCheckPayment, hmap]
    · have hpf : passesFilter W inv = false := by
        simp [passesFilter, hst]
      refine ⟨ps, ?_, ?_⟩
      · simp only [checkPayments, ne_eq, hst, not_false_eq_true, if_true]
        exact hps
      · simp only [List.filter_cons, hpf, Bool.false_eq_true, if_false]
        exact hmap

/-! Claim theorems. -/

/-- C1: on a successfully enumerated invoice list whose relevant amounts
parse, `monitor_node` delivers exactly the invoices with status `paid` and
`pay_index` strictly above the watermark, in particular never an unpaid
invoice nor one at or below the watermark. -/
theorem monitor_node_delivers_exactly_new_paid (node : NodeRecord) (invs : List Invoice)
    (wh : Payment → WebhookResp) (hgl : effGlId node ≠ "")
    (hp : ∀ inv ∈ invs, passesFilter (effWatermark node) inv = true →
      (mkPayment node inv).isSome) :
    (monitor_node node (Except.ok invs) wh).delivered =
      invs.filterMap (fun inv =>
        if effStatus inv = "paid" ∧ effWatermark node < effPayIndex inv
        then mkPayment node inv else none) := by
  have h := (monitor_node_ok_parts node invs wh hgl hp).1
  rw [h, deliveredSpec]
  apply List.filterMap_congr
  intro inv _
  by_cases hc : effStatus inv = "paid" ∧ effWatermark node < effPayIndex inv
  · rw [if_pos ((passesFilter_iff _ _).mpr hc), if_pos hc]
  · rw [if_neg (fun ht => hc ((passesFilter_iff _ _).mp ht)), if_neg hc]

/-- C1 witness: the spec scenario instantiates the theorem. -/
theorem monitor_node_delivers_exactly_new_paid_witness :
    effGlId nodeS ≠ "" ∧
    (monitor_node nodeS (Except.ok scen) wh0).delivered =
      scen.filterMap (fun inv =>
        if effStatus inv = "paid" ∧ effWatermark nodeS < effPayIndex inv
        then mkPayment nodeS inv else none) :=
  ⟨by decide, monitor_node_delivers_exactly_new_paid nodeS scen wh0 (by decide) (by decide)⟩

/-- C2: after a successful poll the registry watermark is the maximum
delivered `pay_index` (or the prior watermark when nothing was delivered),
never decreases, dominates every delivered `pay_index`, and is persisted
exactly when it strictly exceeds the prior watermark. -/
theorem monitor_node_watermark_invariants (node : NodeRecord) (invs : List Invoice)
    (wh : Payment → WebhookResp) (hgl : effGlId node ≠ "")
    (hp : ∀ inv ∈ invs, passesFilter (effWatermark node) inv = true →
      (mkPayment node inv).isSome) :
    (invs.filter (passesFilter (effWatermark node)) = [] →
      (monitor_node node (Except.ok invs) wh).newWatermark = effWatermark node ∧
      (monitor_node node (Except.ok invs) wh).persisted = false) ∧
    (invs.filter (passesFilter (effWatermark node)) ≠ [] →
      (monitor_node node (Except.ok invs) wh).newWatermark ∈
        (invs.filter (passesFilter (effWatermark node))).map effPayIndex ∧
      (monitor_node node (Except.ok invs) wh).persisted = true) ∧
    effWatermark node ≤ (monitor_node node (Except.ok invs) wh).newWatermark ∧
    (∀ inv ∈ invs.filter (passesFilter (effWatermark node)),
      effPayIndex inv ≤ (monitor_node node (Except.ok invs) wh).newWatermark) ∧
    ((monitor_node node (Except.ok invs) wh).persisted = true ↔
      effWatermark node < (monitor_node node (Except.ok invs) wh).newWatermark) := by
  obtain ⟨-, -, hw, hpers, -⟩ := monitor_node_ok_parts node invs wh hgl hp
  rw [hw]
  refine ⟨?_, ?_, maxSeenFrom_mono _ _ _, ?_, hpers⟩
  · intro hnil
    have hall : ∀ inv ∈ invs, passesFilter (effWatermark node) inv = false := by
      intro i hi
      by_cases hc : passesFilter (effWatermark node) i = true
      · exact absurd (List.mem_filter.mpr ⟨hi, hc⟩) (by simp [hnil])
      · exact Bool.not_eq_true _ ▸ (by simpa using hc)
    have := maxSeenFrom_of_none (effWatermark node) invs (effWatermark node) hall
    constructor
    · exact this
    · by_cases hper : (monitor_node node (Except.ok invs) wh).persisted = true
      · exact absurd (this ▸ hpers.mp hper) (lt_irrefl _)
      · simpa using hper
  · intro hne
    obtain ⟨i0, hi0⟩ := List.exists_mem_of_ne_nil _ hne
    have hi0m := List.mem_filter.mp hi0
    have hlt : effWatermark node < effPayIndex i0 :=
      ((passesFilter_iff _ _).mp hi0m.2).2
    have hge := maxSeenFrom_ge (effWatermark node) invs (effWatermark node) i0 hi0m.1 hi0m.2
    have hWlt : effWatermark node <
        maxSeenFrom (effWatermark node) invs (effWatermark node) := lt_of_lt_of_le hlt hge
    constructor
    · rcases maxSeenFrom_cases (effWatermark node) invs (effWatermark node) with h | h
      · exact absurd (h ▸ hWlt) (lt_irrefl _)
      · obtain ⟨inv, hmem, hpf, he⟩ := h
        rw [he]
        exact List.mem_map_of_mem _ (List.mem_filter.mpr ⟨hmem, hpf⟩)
    · exact hpers.mpr hWlt
  · intro inv hinv
    have h := List.mem_filter.mp hinv
    exact maxSeenFrom_ge (effWatermark node) invs (effWatermark node) inv h.1 h.2

/-- C2 witness: the spec scenario instantiates the theorem. -/
theorem monitor_node_watermark_invariants_witness :
    effWatermark nodeS ≤ (monitor_node nodeS (Except.ok scen) wh0).newWatermark ∧
    ((monitor_node nodeS (Except.ok scen) wh0).persisted = true ↔
      effWatermark nodeS < (monitor_node nodeS (Except.ok scen) wh0).newWatermark) :=
  ⟨(monitor_node_watermark_invariants nodeS scen wh0 (by decide) (by decide)).2.2.1,
   (monitor_node_watermark_invariants nodeS scen wh0 (by decide) (by decide)).2.2.2.2⟩

/-- C4: an amount string with the 4-character "msat" suffix is parsed by
stripping the suffix and applying integer parsing (so "1500msat" gives
1500), a bare integer passes through unchanged, and when both amount
fields are absent the amount defaults to 0. -/
theorem amount_parsing_spec :
    (∀ s : String, pyEndsWith s "msat" = true →
      parseAmount (AmountVal.str s) = (pyInt? (pyDropRight s 4)).map AmountVal.int) ∧
    parseAmount (AmountVal.str "1500msat") = some (AmountVal.int 1500) ∧
    (∀ n : Int, parseAmount (AmountVal.int n) = some (AmountVal.int n)) ∧
    (∀ inv : Invoice, inv.amount_received_msat = none → inv.msatoshi_received = none →
      rawAmount inv = AmountVal.int 0) := by
  refine ⟨?_, by decide, fun n => rfl, ?_⟩
  · intro s hs
    simp [parseAmount, hs]
  · intro inv h1 h2
    simp [rawAmount, h1, h2]

/-- C4 witness: concrete instantiations of each hypothesis-guarded part. -/
theorem amount_parsing_spec_witness :
    parseAmount (AmountVal.str "250msat") = (pyInt? (pyDropRight "250msat" 4)).map AmountVal.int ∧
    parseAmount (AmountVal.int 7) = some (AmountVal.int 7) ∧
    rawAmount inv0 = AmountVal.int 0 :=
  ⟨amount_parsing_spec.1 "250msat" (by decide),
   amount_parsing_spec.2.2.1 7,
   amount_parsing_spec.2.2.2 inv0 rfl rfl⟩

/-- C5: the webhook's responses (including 500s and network errors, which
`post_to_webhook` absorbs and merely logs as failures) never change what
is delivered, the resulting watermark, its persistence, or the success of
the cycle, and every delivered payment gets its own webhook attempt. -/
theorem webhook_failure_not_blocking (node : NodeRecord)
    (rpc : Except String (List Invoice)) (wh1 wh2 : Payment → WebhookResp) :
    (monitor_node node rpc wh1).delivered = (monitor_node node rpc wh2).delivered ∧
    (monitor_node node rpc wh1).newWatermark = (monitor_node node rpc wh2).newWatermark ∧
    (monitor_node node rpc wh1).persisted = (monitor_node node rpc wh2).persisted ∧
    (monitor_node node rpc wh1).ok = (monitor_node node rpc wh2).ok ∧
    (monitor_node node rpc wh1).webhookResults.length =
      (monitor_node node rpc wh1).delivered.length ∧
    post_to_webhook (WebhookResp.status 500 "") = false ∧
    post_to_webhook (WebhookResp.netError "unreachable") = false := by
  obtain ⟨h1, h2, h3, h4⟩ := monitor_node_wh_indep node rpc wh1 wh2
  exact ⟨h1, h2, h3, h4, monitor_node_results_length node rpc wh1, rfl, rfl⟩

/-- C3 counterexample: the loops iterate in the order the RPC client
returned the invoices and never sort, so with watermark 5 and the paid
invoices listed as pay_index 8 then 6, both deliveries happen in
descending pay_index order (8 before 6), refuting "ascending order for
every invoice list in any order". -/
theorem delivery_order_counterexample :
    (checkPayments 5 scenRev).toOption.map (fun ps => ps.map (fun p => p.pay_index)) =
      some [8, 6] ∧
    (monitor_node nodeS (Except.ok scenRev) wh0).delivered.map (fun p => p.payment_hash) =
      ["h8", "h6"] ∧
    ¬ ((8 : Int) ≤ 6) := by
  refine ⟨by decide, by decide, by decide⟩

/-- C3 amended: deliveries happen in the input order of the RPC response
(the filtered subsequence, not a sorted one); on the spec scenario — whose
input order is ascending — exactly pay_index 6 then 8 are delivered and
the final watermark is 8. -/
theorem delivery_in_input_order (W : Int) (invs : List Invoice)
    (hp : ∀ inv ∈ invs, passesFilter W inv = true → (parseAmount (rawAmount inv)).isSome) :
    (∃ ps, checkPayments W invs = Except.ok ps ∧
      ps.map (fun p => p.pay_index) = (invs.filter (passesFilter W)).map effPayIndex) ∧
    (checkPayments 5 scen).toOption.map (fun ps => ps.map (fun p => p.pay_index)) =
      some [6, 8] ∧
    (monitor_node nodeS (Except.ok scen) wh0).delivered.map (fun p => p.payment_hash) =
      ["h6", "h8"] ∧
    (monitor_node nodeS (Except.ok scen) wh0).newWatermark = 8 ∧
    (monitor_node nodeS (Except.ok scen) wh0).persisted = true := by
  exact ⟨checkPayments_ok_shape W invs hp, by decide, by decide, by decide, by decide⟩

/-- C3 witness: the scenario list instantiates the theorem. -/
theorem delivery_in_input_order_witness :
    ∃ ps, checkPayments 5 scen = Except.ok ps ∧
      ps.map (fun p => p.pay_index) = (scen.filter (passesFilter 5)).map effPayIndex :=
  (delivery_in_input_order 5 scen (by decide)).1

/-- C6: a raised RPC/listinvoices error for one node is absorbed by the
per-node try/except: nothing is delivered, no webhook is attempted, the
stored watermark is untouched (so the next cycle starts from the same
value), and the cycle still visits every node in the list. -/
theorem rpc_error_noop (nodes : List NodeRecord) (node : NodeRecord)
    (rpc : String → Except String (List Invoice)) (wh : Payment → WebhookResp)
    (e : String) (hmem : node ∈ nodes) (herr : rpc node.id = Except.error e) :
    (run_cycle nodes rpc wh).length = nodes.length ∧
    monitor_node node (rpc node.id) wh ∈ run_cycle nodes rpc wh ∧
    (monitor_node node (rpc node.id) wh).delivered = [] ∧
    (monitor_node node (rpc node.id) wh).webhookResults = [] ∧
    (monitor_node node (rpc node.id) wh).persisted = false ∧
    stored_watermark node (monitor_node node (rpc node.id) wh) = node.last_pay_index := by
  refine ⟨List.length_map _ _, List.mem_map_of_mem _ hmem, ?_⟩
  rw [herr]
  by_cases hgl : effGlId node = ""
  · simp [monitor_node, hgl, stored_watermark]
  · simp [monitor_node, hgl, stored_watermark]

/-- C6 witness: a one-node registry with an erroring RPC client. -/
theorem rpc_error_noop_witness :
    stored_watermark nodeS
        (monitor_node nodeS ((fun _ => Except.error "connection refused") nodeS.id) wh0) =
      nodeS.last_pay_index :=
  (rpc_error_noop [nodeS] nodeS (fun _ => Except.error "connection refused") wh0
    "connection refused" (List.mem_singleton.mpr rfl) rfl).2.2.2.2.2

/-- C7: the code contradicts the spec here. With watermark 5 and a paid
pay_index-6 invoice whose amount string "abcmsat" cannot be parsed,
`int` raises and the per-node try/except aborts the whole cycle: the
following valid paid pay_index-7 invoice (which passes the filter) is
never delivered, nothing is delivered at all, and the watermark does not
advance — instead of the per-invoice skip with a warning that the spec
prescribes. check-invoices likewise discards all payments. -/
theorem malformed_amount_aborts_cycle :
    monitor_node nodeS (Except.ok scenBad) wh0 =
      { delivered := [], webhookResults := [], newWatermark := 5
        persisted := false, ok := false } ∧
    passesFilter (effWatermark nodeS) (mkInv "paid" (some 7) (some (AmountVal.int 1)) "h7") =
      true ∧
    (checkPayments 5 scenBad).toOption = none := by
  refine ⟨by decide, by decide, by decide⟩

/-- C8 counterexample: check-invoices.py with missing credentials prints
an error object and exits 0, not non-zero. -/
theorem missing_credentials_exit_zero_counterexample :
    (checkInvoicesRun 0 false true (Except.ok [])).exitCode = 0 ∧
    (checkInvoicesRun 0 false true (Except.ok [])).error =
      some "Greenlight credentials not found" := by
  refine ⟨by decide, by decide⟩

/-- C8 amended: only the daemon treats missing credentials as fatal —
`load_credentials` exits with code 1 when the certificate or key is
absent — while the one-shot checker reports the error in its JSON output
and exits 0 with an empty payment list. -/
theorem missing_credentials_exit_codes (c k : Bool) (i : Int)
    (rpc : Except String (List Invoice)) (h : c = false ∨ k = false) :
    load_credentials c k = Except.error 1 ∧
    (checkInvoicesRun i c k rpc).exitCode = 0 ∧
    (checkInvoicesRun i c k rpc).payments = [] := by
  rcases h with h | h
  · subst h
    exact ⟨rfl, by simp [checkInvoicesRun], by simp [checkInvoicesRun]⟩
  · subst h
    cases c
    · exact ⟨rfl, by simp [checkInvoicesRun], by simp [checkInvoicesRun]⟩
    · exact ⟨rfl, by simp [checkInvoicesRun], by simp [checkInvoicesRun]⟩

/-- C8 witness: missing certificate with the key present. -/
theorem missing_credentials_exit_codes_witness :
    load_credentials false true = Except.error 1 ∧
    (checkInvoicesRun 0 false true (Except.ok [])).exitCode = 0 ∧
    (checkInvoicesRun 0 false true (Except.ok [])).payments = [] :=
  missing_credentials_exit_codes false true 0 (Except.ok []) (Or.inl rfl)

/-- C9: the sleep between cycles happens in unit increments with the
cancellation flag checked before each increment, before each node's poll,
and before each cycle: once a check observes the flag cleared, no further
unit sleep is taken (so at most the in-flight 1-second sleep remains), no
further node poll starts, and no new poll cycle begins. -/
theorem shutdown_checks_flag_promptly (interval fuel i : Nat) (running : Nat → Bool)
    (nodes : List NodeRecord) (h : running i = false) :
    (sleep_loop interval running i).1 = 0 ∧
    (cycle_polls running nodes i).1 = 0 ∧
    main_loop interval running nodes fuel i = 0 := by
  refine ⟨?_, ?_, ?_⟩
  · cases interval with
    | zero => rfl
    | succ n => simp [sleep_loop, h]
  · cases nodes with
    | nil => rfl
    | cons a l => simp [cycle_polls, h]
  · cases fuel with
    | zero => rfl
    | succ f => simp [main_loop, h]

/-- C9 witness: flag already cleared at the first check with the default
30-second interval. -/
theorem shutdown_checks_flag_promptly_witness :
    (sleep_loop 30 (fun _ => false) 0).1 = 0 ∧
    (cycle_polls (fun _ => false) [nodeS] 0).1 = 0 ∧
    main_loop 30 (fun _ => false) [nodeS] 5 0 = 0 :=
  shutdown_checks_flag_promptly 30 5 0 (fun _ => false) [nodeS] rfl

/-- C10 counterexample: a registry row can carry a negative
`last_pay_index` (Python `or 0` only replaces `None` and `0`), and then a
paid invoice with no `pay_index` field — effective pay_index 0 — IS
delivered, refuting "no invoice with a non-positive or missing pay_index
is ever delivered". -/
theorem nonpositive_pay_index_counterexample :
    effWatermark nodeNeg = -1 ∧
    effPayIndex invNoIdx = 0 ∧
    (monitor_node nodeNeg (Except.ok [invNoIdx]) wh0).delivered =
      [ { node_id := "n2", business_id := none, payment_hash := "hx", preimage := ""
          amount_msat := AmountVal.int 0, offer_id := none, payer_note := none } ] := by
  refine ⟨by decide, by decide, by decide⟩

/-- C10 amended: a missing or null `last_pay_index` is read as watermark 0
and a missing `pay_index` as 0; whenever the effective watermark is
non-negative (in particular in the missing/null case) every delivered
payment comes from an invoice with strictly positive effective pay_index,
so no invoice with a non-positive or missing pay_index is delivered. -/
theorem nonpositive_pay_index_not_delivered (node : NodeRecord) (invs : List Invoice)
    (wh : Payment → WebhookResp) (hW : 0 ≤ effWatermark node) :
    (∀ n : NodeRecord, n.last_pay_index = none → effWatermark n = 0) ∧
    (∀ inv : Invoice, inv.pay_index = none → effPayIndex inv = 0) ∧
    (∀ p ∈ (monitor_node node (Except.ok invs) wh).delivered,
      ∃ inv, inv ∈ invs ∧ mkPayment node inv = some p ∧ 0 < effPayIndex inv) := by
  refine ⟨?_, ?_, ?_⟩
  · intro n h; simp [effWatermark, h]
  · intro inv h; simp [effPayIndex, h]
  · intro p hp
    have hsub := monitor_node_delivered_sub node invs wh p hp
    obtain ⟨inv, hmem, hpf, hmk⟩ :=
      pollLoop_delivered_sound node wh (effWatermark node) invs (effWatermark node) p hsub
    exact ⟨inv, hmem, hmk, lt_of_le_of_lt hW ((passesFilter_iff _ _).mp hpf).2⟩

/-- C10 witness: a node with watermark 5 and the pay_index-free paid
invoice; the theorem applies and the invoice is indeed not delivered. -/
theorem nonpositive_pay_index_not_delivered_witness :
    (0 : Int) ≤ effWatermark nodeS ∧
    (∀ p ∈ (monitor_node nodeS (Except.ok [invNoIdx]) wh0).delivered,
      ∃ inv, inv ∈ [invNoIdx] ∧ mkPayment nodeS inv = some p ∧ 0 < effPayIndex inv) :=
  ⟨by decide,
   (nonpositive_pay_index_not_delivered nodeS [invNoIdx] wh0 (by decide)).2.2⟩

end CoinPay
